import Mathlib

/-!
Verification of the image-ingestion pipeline of `src/bud_learning/cli.py`
(`extract_book`): discovery of page images in a directory, per-image
normalization (HEIC conversion through external tools), base64 encoding,
sequential transcription calls with throttling, and aggregation of the
returned markdown into one output file.

The embedding is shallow: Python strings become `String`, byte buffers become
`List Nat`, and every effect of the pipeline (temporary-file creation and
deletion, sleeping, provider calls, console messages, the final file write) is
recorded as an explicit `Event`.  The outcome of each external interaction
(directory listing, HEIC converter, file reads, the provider) is supplied by
an `Env` of oracles, so one run of `extract_book` is a pure function of the
environment.  Python string primitives are re-implemented structurally over
`String.data` so that every definition evaluates inside the kernel.
-/

namespace BudLearning

/-- Lexicographic comparison of char lists by code point: the order Python uses
to compare strings, hence the order of `image_files.sort()` in `extract_book`. -/
def listLe : List Char → List Char → Bool
  | [], _ => true
  | _ :: _, [] => false
  | a :: l, b :: m => if a < b then true else if b < a then false else listLe l m

/-- Lexicographic order on full path strings. -/
def strRel (a b : String) : Prop := listLe a.data b.data = true

instance strRelDecidable : DecidableRel strRel :=
fun a b => instDecidableEqBool (listLe a.data b.data) true

/-- Python `s.split(",")` on the underlying char list: the comma-separated
pieces, keeping empty pieces, with `[]` splitting to `[[]]`. -/
def splitComma : List Char → List (List Char)
  | [] => [[]]
  | c :: rest =>
    if c == ',' then [] :: splitComma rest
    else
      match splitComma rest with
      | [] => [[c]]
      | h :: t => (c :: h) :: t

/-- Python `image_extensions.split(",")`. -/
def strSplitComma (s : String) : List String :=
  (splitComma s.data).map (fun l => String.mk l)

/-- Python `ext.strip()`: drop whitespace from both ends. -/
def trimChars (l : List Char) : List Char :=
  ((l.dropWhile Char.isWhitespace).reverse.dropWhile Char.isWhitespace).reverse

/-- Python `ext.strip()` on strings. -/
def strTrim (s : String) : String := String.mk (trimChars s.data)

/-- Python `s.lower()` (ASCII letters, which is all an extension or path used
by the tool needs). -/
def strLower (s : String) : String := String.mk (s.data.map Char.toLower)

/-- Python `s.upper()`. -/
def strUpper (s : String) : String := String.mk (s.data.map Char.toUpper)

/-- Whether the char list `p` is an initial segment of `l`. -/
def listBeginsWith : List Char → List Char → Bool
  | _, [] => true
  | [], _ :: _ => false
  | a :: l, b :: m => a == b && listBeginsWith l m

/-- Python `s.endswith(suffix)`. -/
def strEndsWith (s suffix : String) : Bool :=
  listBeginsWith s.data.reverse suffix.data.reverse

/-- Python `s.startswith(p)`. -/
def strBeginsWith (s p : String) : Bool := listBeginsWith s.data p.data

/-- Whether `sub` occurs contiguously inside `l`. -/
def containsSub : List Char → List Char → Bool
  | [], sub => sub.isEmpty
  | a :: t, sub => listBeginsWith (a :: t) sub || containsSub t sub

/-- Python `sub in s`: substring containment. -/
def strContains (s sub : String) : Bool := containsSub s.data sub.data

/-- Glob match of one directory entry against the pattern `*.{ext}` used by
`glob.glob(f"{directory}/*.{ext}")`: the name must end in `"." ++ ext`, and a
shell-style `*` never matches a leading dot, so hidden entries are excluded. -/
def matchesExt (ext name : String) : Bool :=
  strEndsWith name ("." ++ ext) && !(strBeginsWith name ".")

/-- The extension list after `image_extensions.split(",")` and the per-entry
`ext.strip()` of `extract_book`. -/
def trimmedExtensions (imageExtensions : String) : List String :=
  (strSplitComma imageExtensions).map strTrim

/-- One `glob.glob(f"{directory}/*.{ext}")` call over the direct entries of
the directory (a single `*` does not cross `/`, so only direct children can
match, matching the absence of recursion in the source). -/
def globExt (directory ext : String) (entries : List String) : List String :=
  (entries.filter (fun n => matchesExt ext n)).map (fun n => directory ++ "/" ++ n)

/-- Discovery: for every stripped extension, glob its lowercase and uppercase
pattern, concatenate all matches, and sort the result (`image_files.sort()`).
Python sorts with a stable comparison by code point; since ties in `strRel`
are literally equal strings, the sorted value is the same list. -/
def discoverImages (directory imageExtensions : String) (entries : List String) :
    List String :=
  List.insertionSort strRel
    ((trimmedExtensions imageExtensions).flatMap
      (fun ext =>
        globExt directory (strLower ext) entries ++
        globExt directory (strUpper ext) entries))

/-- The base64 alphabet of RFC 4648, as used by `base64.b64encode`. -/
def base64Chars : List Char :=
  "ABCDEFGHIJKLMNOPQRSTUVWXYZabcdefghijklmnopqrstuvwxyz0123456789+/".data

/-- The base64 digit for a 6-bit value. -/
def base64Digit (n : Nat) : Char := base64Chars.getD n '='

/-- `base64.b64encode(bytes).decode("utf-8")`: standard base64 with padding,
three input bytes to four output digits. -/
def base64Encode : List Nat → String
  | [] => ""
  | [b1] => String.mk [base64Digit (b1 / 4), base64Digit (b1 % 4 * 16), '=', '=']
  | [b1, b2] =>
    String.mk [base64Digit (b1 / 4), base64Digit (b1 % 4 * 16 + b2 / 16),
      base64Digit (b2 % 16 * 4), '=']
  | b1 :: b2 :: b3 :: rest =>
    String.mk [base64Digit (b1 / 4), base64Digit (b1 % 4 * 16 + b2 / 16),
      base64Digit (b2 % 16 * 4 + b3 / 64), base64Digit (b3 % 64)] ++
    base64Encode rest

/-- Outcome of the HEIC conversion step (the `sips` / `magick` subprocess
cascade): both tools can fail their `subprocess.run` (printing the install
hint and continuing), or some other exception can be raised inside the
conversion block (caught by the enclosing `except`). -/
inductive ConvOutcome where
  | ok : ConvOutcome
  | toolsFailed : ConvOutcome
  | raised : String → ConvOutcome
deriving DecidableEq

/-- Oracles for every external interaction of one `extract_book` run.  The
per-path functions fix what the filesystem, the converters and the provider
would answer for each image, making the run a pure function. -/
structure Env where
  entries : List String
  dirOk : Bool
  tempName : String → String
  heicConvert : String → ConvOutcome
  readTemp : String → Except String (List Nat)
  readFile : String → Except String (List Nat)
  api : String → Except String String

/-- Observable effects of a run, in order of occurrence. -/
inductive Event where
  | createdTemp : String → Event
  | deletedTemp : String → Event
  | slept : Event
  | apiCall : String → String → Event
  | logged : String → Event
  | wrote : String → String → Event
  | printed : String → Event
deriving DecidableEq

/-- Whether an `Except` value is a success. -/
def exceptOk {ε α : Type} : Except ε α → Bool
  | Except.ok _ => true
  | Except.error _ => false

/-- The branch test `img_path.lower().endswith('.heic')`. -/
def isHeic (img : String) : Bool := strEndsWith (strLower img) ".heic"

/-- The fixed block separator appended after every transcription,
`f"{page_content}\n\n---\n---\n\n"`. -/
def separator : String := "\n\n---\n---\n\n"

/-- The image payload URL `f"data:image/jpeg;base64,{base64_image}"`; the
MIME label is fixed to jpeg whatever the actual format of the bytes. -/
def dataUrl (bytes : List Nat) : String :=
  "data:image/jpeg;base64," ++ base64Encode bytes

/-- The transcription call for one already-encoded image: on success the text
plus separator is appended and the fixed 1-second sleep happens; on any
exception the error is printed with the path, nothing is appended and,
because `time.sleep(1)` sits inside the `try` after the append, no sleep
happens. -/
def transcribe (env : Env) (img : String) (bytes : List Nat) :
    List Event × Option String :=
  match env.api img with
  | Except.ok text =>
    ([Event.apiCall img (dataUrl bytes), Event.slept], some (text ++ separator))
  | Except.error e =>
    ([Event.apiCall img (dataUrl bytes),
      Event.logged ("Error processing image " ++ img ++ ": " ++ e)], none)

/-- The per-image normalization step.  For a HEIC image: create the temporary
file, run the converter cascade, read the converted bytes, and unlink the
temporary file — where the unlink is reached only on the all-success path,
since both failure branches `continue` without it.  For any other image, read
the bytes directly with no surrounding `try`, so a read error propagates as
`Except.error` and aborts the whole run. -/
def normalize (env : Env) (img : String) :
    Except String (List Event × Option (List Nat)) :=
  if isHeic img then
    match env.heicConvert img with
    | ConvOutcome.toolsFailed =>
      Except.ok ([Event.createdTemp (env.tempName img),
        Event.logged ("Error: Could not convert HEIC image " ++ img ++
          ". Please install sips (macOS) or ImageMagick.")], none)
    | ConvOutcome.raised e =>
      Except.ok ([Event.createdTemp (env.tempName img),
        Event.logged ("Error converting HEIC image " ++ img ++ ": " ++ e)], none)
    | ConvOutcome.ok =>
      match env.readTemp (env.tempName img) with
      | Except.error e =>
        Except.ok ([Event.createdTemp (env.tempName img),
          Event.logged ("Error converting HEIC image " ++ img ++ ": " ++ e)], none)
      | Except.ok bytes =>
        Except.ok ([Event.createdTemp (env.tempName img),
          Event.deletedTemp (env.tempName img)], some bytes)
  else
    match env.readFile img with
    | Except.error e => Except.error e
    | Except.ok bytes => Except.ok ([], some bytes)

/-- One iteration of the `for i, img_path in enumerate(image_files)` body:
normalization followed, when bytes were produced, by the transcription call.
The value is the events of the iteration and the text block appended to
`full_content` (if any); `Except.error` is an uncaught exception. -/
def processImage (env : Env) (img : String) :
    Except String (List Event × Option String) :=
  match normalize env img with
  | Except.error e => Except.error e
  | Except.ok (evs, none) => Except.ok (evs, none)
  | Except.ok (evs, some bytes) =>
    Except.ok (evs ++ (transcribe env img bytes).1, (transcribe env img bytes).2)

/-- Accumulated outcome of the loop: events, the collected `full_content`
blocks in order, and whether an uncaught exception aborted the run. -/
structure RunState where
  events : List Event
  texts : List String
  aborted : Bool
deriving DecidableEq

/-- The processing loop over the discovered images, in order.  An uncaught
exception stops the loop (and the whole command) at that image. -/
def runLoop (env : Env) : List String → RunState
  | [] => ⟨[], [], false⟩
  | img :: rest =>
    match processImage env img with
    | Except.error _ => ⟨[], [], true⟩
    | Except.ok (evs, txt) =>
      ⟨evs ++ (runLoop env rest).events, txt.toList ++ (runLoop env rest).texts,
        (runLoop env rest).aborted⟩

/-- The output location `Path(directory, '..', output_file)`: the output file
name resolved against the parent of the input directory. -/
def outputPath (directory outputFile : String) : String :=
  directory ++ "/../" ++ outputFile

/-- The default of the `output_file` parameter of `extract_book`. -/
def defaultOutputFile : String := "to_read.md"

/-- The default of the `image_extensions` parameter of `extract_book`. -/
def defaultImageExtensions : String := "jpg,jpeg,png,heic"

/-- The console line `f"Found {len(image_files)} images to process"`. -/
def foundMsg (n : Nat) : String :=
  "Found " ++ Nat.repr n ++ " images to process"

/-- The console line `f"Successfully extracted content from {len(image_files)}
pages"` — counting the images discovered, not those transcribed. -/
def successMsg (n : Nat) : String :=
  "Successfully extracted content from " ++ Nat.repr n ++ " pages"

/-- The whole `extract_book` command as the list of its observable events:
directory check, discovery, the empty-result early return, the processing
loop, and — unless an uncaught exception aborted the loop — the single
overwriting UTF-8 write of `"".join(full_content)` followed by the two report
lines.  (The Python literals quote the directory name; the quotes are elided
here.) -/
def extract_book (env : Env) (directory outputFile imageExtensions : String) :
    List Event :=
  if env.dirOk = false then
    [Event.printed ("Error: Directory " ++ directory ++
      " does not exist or is not a directory")]
  else
    let imageFiles := discoverImages directory imageExtensions env.entries
    if imageFiles.isEmpty then
      [Event.printed ("No images found in " ++ directory ++
        " with extensions: " ++ imageExtensions)]
    else
      let s := runLoop env imageFiles
      if s.aborted then Event.printed (foundMsg imageFiles.length) :: s.events
      else
        Event.printed (foundMsg imageFiles.length) :: s.events ++
          [Event.wrote (outputPath directory outputFile) (String.join s.texts),
            Event.printed (successMsg imageFiles.length),
            Event.printed ("Output written to: " ++ outputPath directory outputFile)]

/-- The text block image `img` contributes to `full_content` under `env`:
`some` exactly when normalization, encoding and the provider call all
succeed. -/
def attemptText (env : Env) (img : String) : Option String :=
  match processImage env img with
  | Except.error _ => none
  | Except.ok (_, txt) => txt

/-- Whether an event is the write of the output file. -/
def isWriteEvent : Event → Bool
  | Event.wrote _ _ => true
  | _ => false

/-- Whether an event is a console log whose message mentions `img`. -/
def loggedWith (img : String) : Event → Bool
  | Event.logged m => strContains m img
  | _ => false

/-! Order-theoretic facts about the lexicographic comparison, needed to reason
about the `image_files.sort()` step. -/

theorem listLe_total : ∀ l m : List Char, listLe l m = true ∨ listLe m l = true := by
  intro l
  induction l with
  | nil => intro m; left; rfl
  | cons a l ih =>
    intro m
    cases m with
    | nil => right; rfl
    | cons b m' =>
      rcases lt_trichotomy a b with h | h | h
      · left; simp [listLe, h]
      · subst h
        rcases ih m' with h' | h'
        · left; simp [listLe, lt_irrefl, h']
        · right; simp [listLe, lt_irrefl, h']
      · right; simp [listLe, h]

theorem listLe_trans : ∀ l m n : List Char,
    listLe l m = true → listLe m n = true → listLe l n = true := by
  intro l
  induction l with
  | nil => intro m n _ _; rfl
  | cons a l ih =>
    intro m n h1 h2
    cases m with
    | nil => simp [listLe] at h1
    | cons b m' =>
      cases n with
      | nil => simp [listLe] at h2
      | cons c n' =>
        rcases lt_trichotomy a b with hab | hab | hab
        · rcases lt_trichotomy b c with hbc | hbc | hbc
          · simp [listLe, lt_trans hab hbc]
          · subst hbc; simp [listLe, hab]
          · simp [listLe, asymm hbc, hbc] at h2
        · subst hab
          rcases lt_trichotomy a c with hac | hac | hac
          · simp [listLe, hac]
          · subst hac
            simp only [listLe, lt_irrefl, if_false] at h1 h2 ⊢
            exact ih m' n' h1 h2
          · simp [listLe, asymm hac, hac] at h2
        · simp [listLe, asymm hab, hab] at h1

instance strRelTotal : IsTotal String strRel :=
⟨fun a b => listLe_total a.data b.data⟩

instance strRelTrans : IsTrans String strRel :=
⟨fun a b c h1 h2 => listLe_trans a.data b.data c.data h1 h2⟩

/-! Substring containment facts, used to state that error logs mention the
failing image's path. -/

theorem listBeginsWith_append (sub post : List Char) :
    listBeginsWith (sub ++ post) sub = true := by
  induction sub with
  | nil => cases post <;> rfl
  | cons a l ih => simp [listBeginsWith, ih]

theorem containsSub_self_append (sub post : List Char) :
    containsSub (sub ++ post) sub = true := by
  cases sub with
  | nil =>
    cases post with
    | nil => rfl
    | cons c t => simp [containsSub, listBeginsWith]
  | cons a l =>
    show (listBeginsWith ((a :: l) ++ post) (a :: l) ||
      containsSub (l ++ post) (a :: l)) = true
    rw [listBeginsWith_append (a :: l) post]
    rfl

theorem containsSub_append_left (pre rest sub : List Char)
    (h : containsSub rest sub = true) : containsSub (pre ++ rest) sub = true := by
  induction pre with
  | nil => exact h
  | cons c p ih => simp [containsSub, ih]

theorem strContains_of_data (s img : String) (pre post : List Char)
    (hd : s.data = pre ++ img.data ++ post) : strContains s img = true := by
  unfold strContains
  rw [hd, List.append_assoc]
  exact containsSub_append_left pre _ _ (containsSub_self_append img.data post)

/-! The processing loop collects exactly the texts of the successful images,
in discovery order. -/

theorem runLoop_texts (env : Env) (l : List String)
    (h : (runLoop env l).aborted = false) :
    (runLoop env l).texts = l.filterMap (attemptText env) := by
  induction l with
  | nil => rfl
  | cons img rest ih =>
    cases hp : processImage env img with
    | error e => simp [runLoop, hp] at h
    | ok p =>
      obtain ⟨evs, txt⟩ := p
      have h' : (runLoop env rest).aborted = false := by
        simpa [runLoop, hp] using h
      simp only [runLoop, hp, List.filterMap_cons, attemptText]
      rw [ih h']
      cases txt <;> simp

/-! Concrete environments used to instantiate the theorems below. -/

/-- Three discovered images of which the middle one fails its provider call. -/
def mixedEnv : Env where
  entries := ["b.png", "a.jpg", "c.jpg"]
  dirOk := true
  tempName := fun _ => "tmp.jpg"
  heicConvert := fun _ => ConvOutcome.ok
  readTemp := fun _ => Except.ok [0]
  readFile := fun _ => Except.ok [1]
  api := fun img => if img == "d/b.png" then Except.error "boom" else Except.ok "TEXT"

/-- One non-HEIC image whose byte read raises. -/
def readFailEnv : Env where
  entries := ["a.jpg"]
  dirOk := true
  tempName := fun _ => "tmp.jpg"
  heicConvert := fun _ => ConvOutcome.ok
  readTemp := fun _ => Except.ok [0]
  readFile := fun _ => Except.error "read failed"
  api := fun _ => Except.ok "TEXT"

/-- One non-HEIC image whose provider call raises. -/
def apiFailEnv : Env where
  entries := ["a.jpg"]
  dirOk := true
  tempName := fun _ => "tmp.jpg"
  heicConvert := fun _ => ConvOutcome.ok
  readTemp := fun _ => Except.ok [0]
  readFile := fun _ => Except.ok [1]
  api := fun _ => Except.error "rate limited"

/-- One HEIC image for which both conversion tools fail. -/
def heicFailEnv : Env where
  entries := ["x.heic"]
  dirOk := true
  tempName := fun _ => "tmp.jpg"
  heicConvert := fun _ => ConvOutcome.toolsFailed
  readTemp := fun _ => Except.ok [0]
  readFile := fun _ => Except.ok [1]
  api := fun _ => Except.ok "TEXT"

/-- One HEIC image whose conversion, read and provider call all succeed. -/
def heicOkEnv : Env where
  entries := ["x.heic"]
  dirOk := true
  tempName := fun _ => "tmp.jpg"
  heicConvert := fun _ => ConvOutcome.ok
  readTemp := fun _ => Except.ok [2]
  readFile := fun _ => Except.ok [1]
  api := fun _ => Except.ok "TEXT"

/-- One PNG image (PNG magic bytes) that reads and transcribes fine. -/
def pngOkEnv : Env where
  entries := ["a.png"]
  dirOk := true
  tempName := fun _ => "tmp.jpg"
  heicConvert := fun _ => ConvOutcome.ok
  readTemp := fun _ => Except.ok [0]
  readFile := fun _ => Except.ok [137, 80, 78, 71]
  api := fun _ => Except.ok "TEXT"

/-- A directory whose entries match no image extension. -/
def noMatchEnv : Env where
  entries := ["notes.txt"]
  dirOk := true
  tempName := fun _ => "tmp.jpg"
  heicConvert := fun _ => ConvOutcome.ok
  readTemp := fun _ => Except.ok [0]
  readFile := fun _ => Except.ok [1]
  api := fun _ => Except.ok "TEXT"

/-- Two discovered images whose provider calls both fail. -/
def allFailEnv : Env where
  entries := ["a.jpg", "b.jpg"]
  dirOk := true
  tempName := fun _ => "tmp.jpg"
  heicConvert := fun _ => ConvOutcome.ok
  readTemp := fun _ => Except.ok [0]
  readFile := fun _ => Except.ok [1]
  api := fun _ => Except.error "boom"

/-- C5 (amended): for every directory, extension string and set of directory
entries, discovery returns a list sorted lexicographically by full path whose
members are exactly the paths `directory/name` of entries matched by the
lower- or upper-case pattern of some stripped extension, with no recursion
into subdirectories (only direct entries are consulted).  The original
no-duplicates clause fails — see the counterexample — because every pattern
contributes its matches independently. -/
theorem c5_discovery_sorted_matches (directory imageExtensions : String)
    (entries : List String) :
    List.Sorted strRel (discoverImages directory imageExtensions entries) ∧
    ∀ p, (p ∈ discoverImages directory imageExtensions entries ↔
      ∃ ext ∈ trimmedExtensions imageExtensions, ∃ name ∈ entries,
        p = directory ++ "/" ++ name ∧
        (matchesExt (strLower ext) name = true ∨
          matchesExt (strUpper ext) name = true)) := by
  constructor
  · exact List.sorted_insertionSort strRel _
  · intro p
    unfold discoverImages
    rw [List.Perm.mem_iff (List.perm_insertionSort strRel _)]
    simp only [List.mem_flatMap, List.mem_append, globExt, List.mem_map,
      List.mem_filter]
    constructor
    · rintro ⟨ext, hext, h | h⟩
      · obtain ⟨name, ⟨hname, hm⟩, rfl⟩ := h
        exact ⟨ext, hext, name, hname, rfl, Or.inl hm⟩
      · obtain ⟨name, ⟨hname, hm⟩, rfl⟩ := h
        exact ⟨ext, hext, name, hname, rfl, Or.inr hm⟩
    · rintro ⟨ext, hext, name, hname, rfl, hm | hm⟩
      · exact ⟨ext, hext, Or.inl ⟨name, ⟨hname, hm⟩, rfl⟩⟩
      · exact ⟨ext, hext, Or.inr ⟨name, ⟨hname, hm⟩, rfl⟩⟩

/-- C5 counterexample: with directory `d` holding one file `a.jpg` and the
extension set `jpg,JPG`, the lowercase pattern of each of the two declared
extensions matches the same file, so discovery returns it twice — the
returned list has duplicates. -/
theorem c5_duplicate_discovery_cex :
    discoverImages "d" "jpg,JPG" ["a.jpg"] = ["d/a.jpg", "d/a.jpg"] ∧
    ¬ (discoverImages "d" "jpg,JPG" ["a.jpg"]).Nodup := by
  exact ⟨by decide, by decide⟩

/-- C10: discovery only depends on the extension string through the stripped
pieces of its comma-separated split, so surrounding whitespace in each entry
is irrelevant: `jpg, png` discovers the same files as `jpg,png`. -/
theorem c10_extension_trim (directory e1 e2 : String) (entries : List String)
    (h : trimmedExtensions e1 = trimmedExtensions e2) :
    discoverImages directory e1 entries = discoverImages directory e2 entries := by
  unfold discoverImages
  rw [h]

/-- C10 witness: `jpg, png` and `jpg,png` strip to the same extension list and
discover the same files of a concrete directory. -/
theorem c10_extension_trim_witness :
    discoverImages "d" "jpg, png" ["a.jpg", "b.png"] =
      discoverImages "d" "jpg,png" ["a.jpg", "b.png"] ∧
    discoverImages "d" "jpg, png" ["a.jpg", "b.png"] = ["d/a.jpg", "d/b.png"] :=
  ⟨c10_extension_trim "d" "jpg, png" "jpg,png" ["a.jpg", "b.png"] (by decide),
    by decide⟩

/-- C1: in every completed run, the output document is the join, in
lexicographic discovery order, of exactly the text blocks of the images whose
conversion and transcription succeeded (`filterMap` keeps order, omits the
failed images, duplicates nothing and inserts no placeholder). -/
theorem c1_output_order_matches_discovery (env : Env)
    (directory outputFile imageExtensions : String)
    (hdir : env.dirOk = true)
    (hne : discoverImages directory imageExtensions env.entries ≠ [])
    (hab : (runLoop env (discoverImages directory imageExtensions env.entries)).aborted
      = false) :
    Event.wrote (outputPath directory outputFile)
        (String.join ((discoverImages directory imageExtensions env.entries).filterMap
          (attemptText env)))
      ∈ extract_book env directory outputFile imageExtensions := by
  have h2 : (discoverImages directory imageExtensions env.entries).isEmpty = false := by
    cases hE : discoverImages directory imageExtensions env.entries with
    | nil => exact absurd hE hne
    | cons a l => rfl
  rw [← runLoop_texts env _ hab]
  simp [extract_book, hdir, h2, hab]

/-- C1 witness: three images `a.jpg`, `b.png`, `c.jpg` of which `b.png` fails
its provider call; the written document is the two successful blocks in
order. -/
theorem c1_output_order_matches_discovery_witness :
    Event.wrote (outputPath "d" "to_read.md")
        (String.join ((discoverImages "d" "jpg,png" mixedEnv.entries).filterMap
          (attemptText mixedEnv)))
      ∈ extract_book mixedEnv "d" "to_read.md" "jpg,png" ∧
    String.join ((discoverImages "d" "jpg,png" mixedEnv.entries).filterMap
      (attemptText mixedEnv)) = "TEXT\n\n---\n---\n\nTEXT\n\n---\n---\n\n" ∧
    discoverImages "d" "jpg,png" mixedEnv.entries = ["d/a.jpg", "d/b.png", "d/c.jpg"] :=
  ⟨c1_output_order_matches_discovery mixedEnv "d" "to_read.md" "jpg,png" rfl
      (by decide) (by decide),
    by decide, by decide⟩

/-- C6: every completed run with a nonempty discovery performs exactly one
write, of the plain join (no separator beyond the one appended per call) of
the collected texts, at `<directory>/../<output file>`, and then reports the
count of images discovered — not the count transcribed — in the success line.
The write mode `"w"` (overwrite) and the `utf-8` encoding are literal in the
source (`open(output_path, "w", encoding="utf-8")`). -/
theorem c6_aggregation_report (env : Env)
    (directory outputFile imageExtensions : String)
    (hdir : env.dirOk = true)
    (hne : discoverImages directory imageExtensions env.entries ≠ [])
    (hab : (runLoop env (discoverImages directory imageExtensions env.entries)).aborted
      = false) :
    extract_book env directory outputFile imageExtensions =
      Event.printed (foundMsg (discoverImages directory imageExtensions env.entries).length) ::
        (runLoop env (discoverImages directory imageExtensions env.entries)).events ++
        [Event.wrote (outputPath directory outputFile)
            (String.join ((discoverImages directory imageExtensions env.entries).filterMap
              (attemptText env))),
          Event.printed (successMsg
            (discoverImages directory imageExtensions env.entries).length),
          Event.printed ("Output written to: " ++ outputPath directory outputFile)] := by
  have h2 : (discoverImages directory imageExtensions env.entries).isEmpty = false := by
    cases hE : discoverImages directory imageExtensions env.entries with
    | nil => exact absurd hE hne
    | cons a l => rfl
  rw [← runLoop_texts env _ hab]
  simp [extract_book, hdir, h2, hab]

/-- C6 witness: with `b.png` failing, 3 images are discovered, 2 blocks are
collected, and the success line still reports 3 pages, at the default output
file name. -/
theorem c6_aggregation_report_witness :
    extract_book mixedEnv "d" defaultOutputFile "jpg,png" =
      Event.printed (foundMsg (discoverImages "d" "jpg,png" mixedEnv.entries).length) ::
        (runLoop mixedEnv (discoverImages "d" "jpg,png" mixedEnv.entries)).events ++
        [Event.wrote (outputPath "d" defaultOutputFile)
            (String.join ((discoverImages "d" "jpg,png" mixedEnv.entries).filterMap
              (attemptText mixedEnv))),
          Event.printed (successMsg (discoverImages "d" "jpg,png" mixedEnv.entries).length),
          Event.printed ("Output written to: " ++ outputPath "d" defaultOutputFile)] ∧
    (discoverImages "d" "jpg,png" mixedEnv.entries).length = 3 ∧
    ((discoverImages "d" "jpg,png" mixedEnv.entries).filterMap (attemptText mixedEnv)).length
      = 2 ∧
    successMsg 3 = "Successfully extracted content from 3 pages" :=
  ⟨c6_aggregation_report mixedEnv "d" defaultOutputFile "jpg,png" rfl
      (by decide) (by decide),
    by decide, by decide, by decide⟩

/-- C7: when discovery finds nothing (empty directory or no matching file),
the command prints the zero-images report and returns early: its event list is
that single message, and in particular no output file is written.  The early
`return` is a normal exit of the command. -/
theorem c7_no_images_early_return (env : Env)
    (directory outputFile imageExtensions : String)
    (hdir : env.dirOk = true)
    (hempty : discoverImages directory imageExtensions env.entries = []) :
    extract_book env directory outputFile imageExtensions =
      [Event.printed ("No images found in " ++ directory ++
        " with extensions: " ++ imageExtensions)] ∧
    (extract_book env directory outputFile imageExtensions).any isWriteEvent = false := by
  have h : extract_book env directory outputFile imageExtensions =
      [Event.printed ("No images found in " ++ directory ++
        " with extensions: " ++ imageExtensions)] := by
    simp [extract_book, hdir, hempty]
  exact ⟨h, by rw [h]; rfl⟩

/-- C7 witness: a directory holding only `notes.txt` matches nothing for
extension list `jpg`; the run is the single report line and writes no file. -/
theorem c7_no_images_early_return_witness :
    extract_book noMatchEnv "d" "to_read.md" "jpg" =
      [Event.printed ("No images found in " ++ "d" ++ " with extensions: " ++ "jpg")] ∧
    (extract_book noMatchEnv "d" "to_read.md" "jpg").any isWriteEvent = false :=
  c7_no_images_early_return noMatchEnv "d" "to_read.md" "jpg" rfl (by decide)

/-- C8: a completed run that discovered at least one image writes the output
file even when every transcription failed; the written content is then the
empty string (a zero-byte file). -/
theorem c8_empty_output_written (env : Env)
    (directory outputFile imageExtensions : String)
    (hdir : env.dirOk = true)
    (hne : discoverImages directory imageExtensions env.entries ≠ [])
    (hab : (runLoop env (discoverImages directory imageExtensions env.entries)).aborted
      = false)
    (hall : ∀ img ∈ discoverImages directory imageExtensions env.entries,
      attemptText env img = none) :
    Event.wrote (outputPath directory outputFile) "" ∈
      extract_book env directory outputFile imageExtensions := by
  have h2 : (discoverImages directory imageExtensions env.entries).isEmpty = false := by
    cases hE : discoverImages directory imageExtensions env.entries with
    | nil => exact absurd hE hne
    | cons a l => rfl
  have h4 : String.join
      (runLoop env (discoverImages directory imageExtensions env.entries)).texts = "" := by
    rw [runLoop_texts env _ hab, List.filterMap_eq_nil_iff.mpr hall]
    rfl
  rw [← h4]
  simp [extract_book, hdir, h2, hab]

/-- C8 witness: two discovered images whose provider calls both fail; the run
still writes the (empty) output file. -/
theorem c8_empty_output_written_witness :
    Event.wrote (outputPath "d" "to_read.md") "" ∈
      extract_book allFailEnv "d" "to_read.md" "jpg" ∧
    (runLoop allFailEnv (discoverImages "d" "jpg" allFailEnv.entries)).texts = [] :=
  ⟨c8_empty_output_written allFailEnv "d" "to_read.md" "jpg" rfl (by decide) (by decide)
      (by decide),
    by decide⟩

/-- C2 (amended): the per-image error isolation holds only on the HEIC branch.
An image on the HEIC branch never raises out of its iteration (every failure
is caught), and every skipped image — HEIC conversion or read failure,
or a failed provider call — is logged with a message mentioning its path.
But a non-HEIC image's byte read sits outside any `try`, so a read error
there propagates and terminates the run, contrary to the original claim. -/
theorem c2_error_isolation_amended (env : Env) (img : String) :
    (isHeic img = true → ∀ e, processImage env img ≠ Except.error e) ∧
    (∀ evs, processImage env img = Except.ok (evs, none) →
      evs.any (loggedWith img) = true) ∧
    (isHeic img = false → ∀ e, env.readFile img = Except.error e →
      processImage env img = Except.error e) := by
  refine ⟨?_, ?_, ?_⟩
  · intro hh e
    cases hc : env.heicConvert img with
    | toolsFailed => simp [processImage, normalize, hh, hc]
    | raised e2 => simp [processImage, normalize, hh, hc]
    | ok =>
      cases hr : env.readTemp (env.tempName img) with
      | error e2 => simp [processImage, normalize, hh, hc, hr]
      | ok bytes => simp [processImage, normalize, hh, hc, hr]
  · intro evs h
    by_cases hh : isHeic img = true
    · cases hc : env.heicConvert img with
      | toolsFailed =>
        simp [processImage, normalize, hh, hc] at h
        obtain ⟨rfl, -⟩ := h
        simp only [List.any, loggedWith, Bool.or_eq_true]
        right; left
        exact strContains_of_data _ img "Error: Could not convert HEIC image ".data
          ". Please install sips (macOS) or ImageMagick.".data
          (by simp [String.data_append, List.append_assoc])
      | raised e2 =>
        simp [processImage, normalize, hh, hc] at h
        obtain ⟨rfl, -⟩ := h
        simp only [List.any, loggedWith, Bool.or_eq_true]
        right; left
        exact strContains_of_data _ img "Error converting HEIC image ".data
          (": " ++ e2).data (by simp [String.data_append, List.append_assoc])
      | ok =>
        cases hr : env.readTemp (env.tempName img) with
        | error e2 =>
          simp [processImage, normalize, hh, hc, hr] at h
          obtain ⟨rfl, -⟩ := h
          simp only [List.any, loggedWith, Bool.or_eq_true]
          right; left
          exact strContains_of_data _ img "Error converting HEIC image ".data
            (": " ++ e2).data (by simp [String.data_append, List.append_assoc])
        | ok bytes =>
          cases ha : env.api img with
          | ok text => simp [processImage, normalize, transcribe, hh, hc, hr, ha] at h
          | error e2 =>
            simp [processImage, normalize, transcribe, hh, hc, hr, ha] at h
            obtain ⟨rfl, -⟩ := h
            simp only [List.any, loggedWith, Bool.or_eq_true]
            right; right; right; left
            exact strContains_of_data _ img "Error processing image ".data
              (": " ++ e2).data (by simp [String.data_append, List.append_assoc])
    · have hh' : isHeic img = false := by simpa using hh
      cases hr : env.readFile img with
      | error e2 => simp [processImage, normalize, hh', hr] at h
      | ok bytes =>
        cases ha : env.api img with
        | ok text => simp [processImage, normalize, transcribe, hh', hr, ha] at h
        | error e2 =>
          simp [processImage, normalize, transcribe, hh', hr, ha] at h
          obtain ⟨rfl, -⟩ := h
          simp only [List.any, loggedWith, Bool.or_eq_true]
          right; left
          exact strContains_of_data _ img "Error processing image ".data
            (": " ++ e2).data (by simp [String.data_append, List.append_assoc])
  · intro hh e hr
    simp [processImage, normalize, hh, hr]

/-- C2 counterexample: a failed read of a non-HEIC image is not caught — the
run aborts right after the Found line and writes nothing, so the claim that a
read error on a non-HEIC file never terminates the run is false. -/
theorem c2_nonheic_read_abort_cex :
    (runLoop readFailEnv ["d/a.jpg"]).aborted = true ∧
    extract_book readFailEnv "d" "to_read.md" "jpg" = [Event.printed (foundMsg 1)] ∧
    (extract_book readFailEnv "d" "to_read.md" "jpg").any isWriteEvent = false := by
  decide

/-- C2 witness: a HEIC image whose converters fail is skipped, not raised out
of; its log mentions the path; and a non-HEIC image whose read fails raises. -/
theorem c2_error_isolation_amended_witness :
    processImage heicFailEnv "d/x.heic" ≠ Except.error "anything" ∧
    ([Event.createdTemp "tmp.jpg",
      Event.logged ("Error: Could not convert HEIC image " ++ "d/x.heic" ++
        ". Please install sips (macOS) or ImageMagick.")].any (loggedWith "d/x.heic"))
      = true ∧
    processImage readFailEnv "d/a.jpg" = Except.error "read failed" :=
  ⟨(c2_error_isolation_amended heicFailEnv "d/x.heic").1 rfl "anything",
    (c2_error_isolation_amended heicFailEnv "d/x.heic").2.1 _ rfl,
    (c2_error_isolation_amended readFailEnv "d/a.jpg").2.2 rfl "read failed" rfl⟩

/-- C3 (amended): the fixed 1-second sleep happens in an iteration exactly
when the provider call succeeded.  `time.sleep(1)` sits inside the `try`
block after the append, so a raising call jumps to `except` and skips the
sleep — the original after-every-attempt claim fails. -/
theorem c3_sleep_only_after_success (env : Env) (img : String)
    (evs : List Event) (txt : Option String)
    (h : processImage env img = Except.ok (evs, txt)) :
    (Event.slept ∈ evs ↔ txt.isSome = true) := by
  by_cases hh : isHeic img = true
  · cases hc : env.heicConvert img with
    | toolsFailed =>
      simp [processImage, normalize, hh, hc] at h
      obtain ⟨rfl, rfl⟩ := h
      simp
    | raised e =>
      simp [processImage, normalize, hh, hc] at h
      obtain ⟨rfl, rfl⟩ := h
      simp
    | ok =>
      cases hr : env.readTemp (env.tempName img) with
      | error e =>
        simp [processImage, normalize, hh, hc, hr] at h
        obtain ⟨rfl, rfl⟩ := h
        simp
      | ok bytes =>
        cases ha : env.api img with
        | ok text =>
          simp [processImage, normalize, transcribe, hh, hc, hr, ha] at h
          obtain ⟨rfl, rfl⟩ := h
          simp
        | error e =>
          simp [processImage, normalize, transcribe, hh, hc, hr, ha] at h
          obtain ⟨rfl, rfl⟩ := h
          simp
  · have hh' : isHeic img = false := by simpa using hh
    cases hr : env.readFile img with
    | error e => simp [processImage, normalize, hh', hr] at h
    | ok bytes =>
      cases ha : env.api img with
      | ok text =>
        simp [processImage, normalize, transcribe, hh', hr, ha] at h
        obtain ⟨rfl, rfl⟩ := h
        simp
      | error e =>
        simp [processImage, normalize, transcribe, hh', hr, ha] at h
        obtain ⟨rfl, rfl⟩ := h
        simp

/-- C3 counterexample: one image whose provider call raises — the run makes
the attempt (the call event is present) but never sleeps, so the pipeline
does not sleep after every attempt. -/
theorem c3_failed_attempt_no_sleep_cex :
    Event.slept ∉ extract_book apiFailEnv "d" "to_read.md" "jpg" ∧
    Event.apiCall "d/a.jpg" (dataUrl [1]) ∈ extract_book apiFailEnv "d" "to_read.md" "jpg" := by
  decide

/-- C3 witness: a successful attempt does sleep. -/
theorem c3_sleep_only_after_success_witness :
    (Event.slept ∈ [Event.apiCall "d/a.png" (dataUrl [137, 80, 78, 71]), Event.slept] ↔
      (some ("TEXT" ++ separator)).isSome = true) :=
  c3_sleep_only_after_success pngOkEnv "d/a.png"
    [Event.apiCall "d/a.png" (dataUrl [137, 80, 78, 71]), Event.slept]
    (some ("TEXT" ++ separator)) rfl

/-- C4 (amended): every HEIC iteration creates its temporary file, but the
`os.unlink` runs only when both the conversion and the read of the converted
file succeed; each failure branch `continue`s past it, leaking the file —
so deletion regardless of success, as originally claimed, fails. -/
theorem c4_temp_deleted_iff_success (env : Env) (img : String)
    (hh : isHeic img = true) (evs : List Event) (txt : Option String)
    (h : processImage env img = Except.ok (evs, txt)) :
    Event.createdTemp (env.tempName img) ∈ evs ∧
    (Event.deletedTemp (env.tempName img) ∈ evs ↔
      (env.heicConvert img = ConvOutcome.ok ∧
        exceptOk (env.readTemp (env.tempName img)) = true)) := by
  cases hc : env.heicConvert img with
  | toolsFailed =>
    simp [processImage, normalize, hh, hc] at h
    obtain ⟨rfl, rfl⟩ := h
    exact ⟨by simp, by simp [hc]⟩
  | raised e =>
    simp [processImage, normalize, hh, hc] at h
    obtain ⟨rfl, rfl⟩ := h
    exact ⟨by simp, by simp [hc]⟩
  | ok =>
    cases hr : env.readTemp (env.tempName img) with
    | error e =>
      simp [processImage, normalize, hh, hc, hr] at h
      obtain ⟨rfl, rfl⟩ := h
      exact ⟨by simp, by simp [hc, hr, exceptOk]⟩
    | ok bytes =>
      cases ha : env.api img with
      | ok text =>
        simp [processImage, normalize, transcribe, hh, hc, hr, ha] at h
        obtain ⟨rfl, rfl⟩ := h
        exact ⟨by simp, by simp [hc, hr, exceptOk]⟩
      | error e =>
        simp [processImage, normalize, transcribe, hh, hc, hr, ha] at h
        obtain ⟨rfl, rfl⟩ := h
        exact ⟨by simp, by simp [hc, hr, exceptOk]⟩

/-- C4 counterexample: when both conversion tools fail, the temporary file is
created but never deleted anywhere in the run. -/
theorem c4_temp_leak_cex :
    Event.createdTemp "tmp.jpg" ∈ extract_book heicFailEnv "d" "to_read.md" "heic" ∧
    Event.deletedTemp "tmp.jpg" ∉ extract_book heicFailEnv "d" "to_read.md" "heic" := by
  decide

/-- C4 witness: on the all-success HEIC path the temporary file is created and
deleted (before the provider call). -/
theorem c4_temp_deleted_iff_success_witness :
    Event.createdTemp "tmp.jpg" ∈
      [Event.createdTemp "tmp.jpg", Event.deletedTemp "tmp.jpg",
        Event.apiCall "d/x.heic" (dataUrl [2]), Event.slept] ∧
    (Event.deletedTemp "tmp.jpg" ∈
      [Event.createdTemp "tmp.jpg", Event.deletedTemp "tmp.jpg",
        Event.apiCall "d/x.heic" (dataUrl [2]), Event.slept] ↔
      (heicOkEnv.heicConvert "d/x.heic" = ConvOutcome.ok ∧
        exceptOk (heicOkEnv.readTemp "tmp.jpg") = true)) :=
  c4_temp_deleted_iff_success heicOkEnv "d/x.heic" rfl
    [Event.createdTemp "tmp.jpg", Event.deletedTemp "tmp.jpg",
      Event.apiCall "d/x.heic" (dataUrl [2]), Event.slept]
    (some ("TEXT" ++ separator)) rfl

/-- C9: a non-HEIC image whose read succeeds is always submitted — whatever
its actual format — as the base64 encoding of exactly the bytes read from
disk, labeled with the fixed `data:image/jpeg` MIME prefix. -/
theorem c9_jpeg_label_unconverted_bytes (env : Env) (img : String) (bytes : List Nat)
    (hh : isHeic img = false)
    (hr : env.readFile img = Except.ok bytes) :
    ∃ evs txt, processImage env img = Except.ok (evs, txt) ∧
      Event.apiCall img ("data:image/jpeg;base64," ++ base64Encode bytes) ∈ evs := by
  cases ha : env.api img with
  | ok text =>
    refine ⟨[] ++ (transcribe env img bytes).1, (transcribe env img bytes).2, ?_, ?_⟩
    · simp [processImage, normalize, hh, hr]
    · simp [transcribe, ha, dataUrl]
  | error e =>
    refine ⟨[] ++ (transcribe env img bytes).1, (transcribe env img bytes).2, ?_, ?_⟩
    · simp [processImage, normalize, hh, hr]
    · simp [transcribe, ha, dataUrl]

/-- C9 witness: a PNG file (its magic bytes read unchanged) is sent under the
jpeg data-URL label. -/
theorem c9_jpeg_label_unconverted_bytes_witness :
    (∃ evs txt, processImage pngOkEnv "d/a.png" = Except.ok (evs, txt) ∧
      Event.apiCall "d/a.png" ("data:image/jpeg;base64," ++ base64Encode [137, 80, 78, 71])
        ∈ evs) ∧
    "data:image/jpeg;base64," ++ base64Encode [137, 80, 78, 71] =
      "data:image/jpeg;base64,iVBORw==" :=
  ⟨c9_jpeg_label_unconverted_bytes pngOkEnv "d/a.png" [137, 80, 78, 71] (by decide) rfl,
    by decide⟩

end BudLearning
